import Mathlib

/-!
Verification of the DLWAT web application's upload–submit–poll–normalize
lifecycle, shallowly embedded from the repository's sources:

* `src/pages/api/predict.js` — the Inference Gateway request handler
  (multipart parsing, upstream retry/poll loop, error taxonomy,
  temporary-file cleanup);
* `src/app/page.tsx` (first page variant) — the legacy-shape Result
  Presenter (`buildCounts`, flat `classification`/`clusters` arrays);
* the rich-shape Result Presenter page variant (`src/unnamed/part_000`;
  the same component is also appended inside `page.tsx`) — derivation of
  `summary` / `cluster_profiles` / `predictions_preview` /
  `recommendation` fields and the confidence bucketing.

JavaScript's dynamically-typed JSON values are modeled by `JSVal`; numbers
are modeled as exact rationals.  `null` and `undefined` are identified as
`JSVal.null`: the embedded code only distinguishes them from other values
via `??` (nullish coalescing) and truthiness, under which both behave
alike.  Timing (the 2000 ms backoff sleep) has no observable effect in a
pure embedding and is recorded only as the constant `delayMs`.
-/

set_option maxHeartbeats 1000000

namespace DLWAT

/-- A JavaScript/JSON value.  Numbers are exact rationals; `null` stands
for both `null` and `undefined`. -/
inductive JSVal where
  | null : JSVal
  | bool : Bool → JSVal
  | num : ℚ → JSVal
  | str : String → JSVal
  | arr : List JSVal → JSVal
  | obj : List (String × JSVal) → JSVal

namespace JSVal

/-- `v === null || v === undefined` (the nullish test made by `??`). -/
def isNull : JSVal → Bool
  | .null => true
  | _ => false

/-- JavaScript truthiness of a value. -/
def truthy : JSVal → Bool
  | .null => false
  | .bool b => b
  | .num q => decide (q ≠ 0)
  | .str s => decide (s ≠ "")
  | .arr _ => true
  | .obj _ => true

/-- `typeof v === "object"` for the non-null values of the model
(objects and arrays). -/
def isObject : JSVal → Bool
  | .obj _ => true
  | .arr _ => true
  | _ => false

/-- Is the value an array (`Array.isArray`)? -/
def isArr : JSVal → Bool
  | .arr _ => true
  | _ => false

/-- Property read `v.k`: the field's value on objects, `undefined`
(modeled as `null`) otherwise.  (Property access on JS `null` itself
throws; the embedded code only dereferences values it has null-checked or
optional-chained, so that case does not arise on modeled paths.) -/
def get (v : JSVal) (k : String) : JSVal :=
  match v with
  | .obj fs => (fs.lookup k).getD .null
  | _ => .null

/-- The `in` operator: `k in v`. -/
def hasKey (v : JSVal) (k : String) : Bool :=
  match v with
  | .obj fs => fs.any (fun p => p.1 == k)
  | _ => false

/-- Nullish coalescing `v ?? d`. -/
def nullishD (v d : JSVal) : JSVal := if v.isNull then d else v

/-- Strict string comparison `v === s`. -/
def strEq (v : JSVal) (s : String) : Bool :=
  match v with
  | .str t => t == s
  | _ => false

/-- The keys of an object, in insertion order (`Object.keys`). -/
def objKeys : JSVal → List String
  | .obj fs => fs.map Prod.fst
  | _ => []

/-- The values of an object, in insertion order (`Object.values`). -/
def objValues : JSVal → List JSVal
  | .obj fs => fs.map Prod.snd
  | _ => []

/-- The elements of an array value, `[]` for anything else (the
`Array.isArray(x) ? x : []` idiom used by both page variants). -/
def asArray : JSVal → List JSVal
  | .arr l => l
  | _ => []

theorem isNull_eq_false_iff (v : JSVal) : v.isNull = false ↔ v ≠ .null := by
  cases v <;> simp [isNull]

theorem nullishD_of_ne_null {v : JSVal} (h : v ≠ .null) (d : JSVal) :
    v.nullishD d = v := by
  simp [nullishD, (isNull_eq_false_iff v).2 h]

end JSVal

/-! ## Inference Gateway — `src/pages/api/predict.js` -/

/-- A file record produced by formidable; the handler probes the three
property names `filepath` / `filePath` / `path` (line 37). -/
structure FileRec where
  filepath : Option String
  filePath : Option String
  path : Option String

/-- A multipart file field as formidable may deliver it: a single file
record or an array of them (line 35 unwraps the array). -/
inductive FileEntry where
  | one : FileRec → FileEntry
  | many : List FileRec → FileEntry

/-- The `files` component of the parsed form: the handler reads
`files?.file ?? files?.upload` (line 31). -/
structure FormFields where
  file : Option FileEntry
  upload : Option FileEntry

/-- An incoming request: its HTTP method and the outcome of
`parseForm` (`Except.error` = the formidable callback rejected). -/
structure Request where
  method : String
  form : Except JSVal FormFields

/-- One upstream `client.predict` call either returns a value or throws. -/
inductive UpstreamOutcome where
  | ret : JSVal → UpstreamOutcome
  | thrown : JSVal → UpstreamOutcome

/-- The ambient effects the handler interacts with: reading the temporary
upload (may throw), `Client.connect` (may throw), and the upstream
`client.predict` outcome for each attempt number (1-based). -/
structure Env where
  readFile : String → Except JSVal Unit
  connect : Except JSVal Unit
  upstream : ℕ → UpstreamOutcome

/-- An HTTP response: status code and JSON body. -/
structure HttpResponse where
  status : ℕ
  body : JSVal

/-- `{ error: msg }`. -/
def errObj (msg : String) : JSVal := .obj [("error", .str msg)]

/-- The 202 body `{ queued: true, message: "Prediction queued, try again
later" }` (lines 67–69, 81–84, 94–96, 100–102). -/
def stillQueuedBody : JSVal :=
  .obj [("queued", .bool true), ("message", .str "Prediction queued, try again later")]

/-- The fallback body `{ message: "No result returned" }` (line 77). -/
def noResultBody : JSVal := .obj [("message", .str "No result returned")]

/-- Line 65: `result && result.type === "status" && result.queue` — the
queued sentinel arriving as a normal return value. -/
def isQueuedRet (v : JSVal) : Bool :=
  v.truthy && (v.get "type").strEq "status" && (v.get "queue").truthy

/-- Line 80 (and line 99): `err && typeof err === "object" &&
err.type === "status" && err.queue` — the queued sentinel arriving as a
thrown error. -/
def isQueuedErr (e : JSVal) : Bool :=
  e.truthy && e.isObject && (e.get "type").strEq "status" && (e.get "queue").truthy

/-- Whether an upstream outcome carries the queued sentinel, in either of
its two forms. -/
def isQueuedOutcome : UpstreamOutcome → Bool
  | .ret v => isQueuedRet v
  | .thrown e => isQueuedErr e

/-- The 200 body produced for a non-queued returned result (lines 75–77):
`result.data` when truthy, else `result ?? { message: "No result
returned" }`. -/
def successBody (result : JSVal) : JSVal :=
  if (result.get "data").truthy then result.get "data"
  else result.nullishD noResultBody

/-- `JSON.stringify` (key order = insertion order; the embedded code never
inspects the resulting text, only forwards it). -/
def stringify : JSVal → String
  | .null => "null"
  | .bool b => if b then "true" else "false"
  | .num q => if q.den = 1 then toString q.num else toString q.num ++ "/" ++ toString q.den
  | .str s => "\"" ++ s ++ "\""
  | .arr l => "[" ++ String.intercalate "," (stringifyList l) ++ "]"
  | .obj fs => "\x7b" ++ String.intercalate "," (stringifyFields fs) ++ "\x7d"
where
  stringifyList : List JSVal → List String
    | [] => []
    | x :: xs => stringify x :: stringifyList xs
  stringifyFields : List (String × JSVal) → List String
    | [] => []
    | (k, v) :: xs => ("\"" ++ k ++ "\":" ++ stringify v) :: stringifyFields xs

/-- `v.toString()` / `String(v)` as reached in the handler's last-resort
error branch (line 109).  Number formatting is simplified; the claims
never inspect it. -/
def toStr : JSVal → String
  | .null => "null"
  | .bool b => if b then "true" else "false"
  | .num q => if q.den = 1 then toString q.num else toString q.num ++ "/" ++ toString q.den
  | .str s => s
  | .arr l => String.intercalate "," (toStrList l)
  | .obj _ => "[object Object]"
where
  toStrList : List JSVal → List String
    | [] => []
    | x :: xs => toStr x :: toStrList xs

/-- The error value placed in the 500 body by the outer catch
(lines 104–109): `err.message ?? JSON.stringify(err)` when `err` is an
object carrying a `message` or `type` key, otherwise
`(err && err.toString && err.toString()) || "Prediction error"`. -/
def bestMessage (e : JSVal) : JSVal :=
  if e.truthy && e.isObject && (e.hasKey "message" || e.hasKey "type") then
    (e.get "message").nullishD (.str (stringify e))
  else if e.truthy && toStr e ≠ "" then .str (toStr e)
  else .str "Prediction error"

/-- The outer catch block (lines 97–109): a thrown queued sentinel yields
the 202 still-queued response; anything else yields 500 with the best
available message. -/
def catchResponse (e : JSVal) : HttpResponse :=
  if isQueuedErr e then ⟨202, stillQueuedBody⟩
  else ⟨500, .obj [("error", bestMessage e)]⟩

/-- The retry/poll loop (lines 59–92), over the list of upstream outcomes
for the remaining attempts (head = current attempt); `o :: rest` with
`rest = []` is the `attempt === maxAttempts` iteration.  Returns the
loop's verdict (`Except.error e` = a non-queued exception propagating to
the outer catch) together with the number of `client.predict` calls made;
`[]` is the (unreachable in the source, since the final queued iteration
already returns) fall-through after the loop (lines 94–96). -/
def runLoop : List UpstreamOutcome → Except JSVal HttpResponse × ℕ
  | [] => (.ok ⟨202, stillQueuedBody⟩, 0)
  | o :: rest =>
    match o with
    | .ret v =>
      if isQueuedRet v then
        if rest.isEmpty then (.ok ⟨202, stillQueuedBody⟩, 1)
        else
          let r := runLoop rest
          (r.1, r.2 + 1)
      else (.ok ⟨200, successBody v⟩, 1)
    | .thrown e =>
      if isQueuedErr e then
        if rest.isEmpty then (.ok ⟨202, stillQueuedBody⟩, 1)
        else
          let r := runLoop rest
          (r.1, r.2 + 1)
      else (.error e, 1)

/-- `const maxAttempts = 12` (line 56). -/
def maxAttempts : ℕ := 12

/-- `const delayMs = 2000` (line 57); the backoff sleep has no observable
effect in the pure embedding. -/
def delayMs : ℕ := 2000

/-- The upstream outcomes for attempts `1..n`. -/
def attemptOutcomes (upstream : ℕ → UpstreamOutcome) (n : ℕ) : List UpstreamOutcome :=
  (List.range n).map (fun i => upstream (i + 1))

/-- `uploaded.filepath ?? uploaded.filePath ?? uploaded.path` (line 37). -/
def resolvePath (f : FileRec) : Option String :=
  (f.filepath.orElse fun _ => f.filePath).orElse fun _ => f.path

/-- JS truthiness of the `uploadedPath` variable: unset (`undefined`) and
the empty string are falsy. -/
def pathTruthy : Option String → Bool
  | none => false
  | some s => decide (s ≠ "")

/-- Line 35: `if (Array.isArray(uploaded)) uploaded = uploaded[0]`. -/
def entryFile : FileEntry → Option FileRec
  | .one f => some f
  | .many l => l.head?

/-- The `TypeError` raised when `uploaded[0]` of an empty array
(`undefined`) has its `.filepath` read (line 37); modeled as a plain
error object. -/
def typeErrorVal : JSVal :=
  .obj [("message", .str "Cannot read properties of undefined (reading filepath)")]

/-- What one call of the handler produced: the HTTP response plus counts
of the externally visible effects — `fsPromises.unlink` attempts in the
`finally` block, `Client.connect` attempts, and `client.predict` calls. -/
structure HandlerResult where
  response : HttpResponse
  unlinks : ℕ
  connects : ℕ
  predicts : ℕ

/-- The API route handler of `src/pages/api/predict.js` (lines 21–117) as
a pure function of the request and the ambient effects. -/
def handler (env : Env) (req : Request) : HandlerResult :=
  if req.method ≠ "POST" then
    ⟨⟨405, errObj "Method not allowed"⟩, 0, 0, 0⟩
  else
    match req.form with
    | .error e => ⟨catchResponse e, 0, 0, 0⟩
    | .ok files =>
      match files.file.orElse (fun _ => files.upload) with
      | none => ⟨⟨400, errObj "No file uploaded"⟩, 0, 0, 0⟩
      | some entry =>
        match entryFile entry with
        | none => ⟨catchResponse typeErrorVal, 0, 0, 0⟩
        | some f =>
          let uploadedPath := resolvePath f
          if pathTruthy uploadedPath = false then
            ⟨⟨400, errObj "Uploaded file path not found"⟩, 0, 0, 0⟩
          else
            match env.readFile (uploadedPath.getD "") with
            | .error e => ⟨catchResponse e, 1, 0, 0⟩
            | .ok _ =>
              match env.connect with
              | .error e => ⟨catchResponse e, 1, 1, 0⟩
              | .ok _ =>
                match runLoop (attemptOutcomes env.upstream maxAttempts) with
                | (.ok resp, n) => ⟨resp, 1, 1, n⟩
                | (.error e, n) => ⟨catchResponse e, 1, 1, n⟩

/-- The handler obtains a (truthy) temporary upload path exactly when the
method is POST, the form parses, a file entry is present under `file` or
`upload`, and its resolved path is a nonempty string. -/
def obtainsPath (req : Request) : Bool :=
  (req.method == "POST") &&
    (match req.form with
     | .error _ => false
     | .ok files =>
       match files.file.orElse (fun _ => files.upload) with
       | none => false
       | some entry =>
         match entryFile entry with
         | none => false
         | some f => pathTruthy (resolvePath f))

/-- The request reaches the upstream service: POST, form parsed, a file
entry with a truthy path, the temporary file readable, and
`Client.connect` succeeding. -/
def ReachesUpstream (env : Env) (req : Request) : Prop :=
  ∃ files entry f,
    req.method = "POST" ∧
    req.form = .ok files ∧
    files.file.orElse (fun _ => files.upload) = some entry ∧
    entryFile entry = some f ∧
    pathTruthy (resolvePath f) = true ∧
    env.readFile ((resolvePath f).getD "") = .ok () ∧
    env.connect = .ok ()

/-! ## Legacy-shape Result Presenter — `src/app/page.tsx` (first variant) -/

/-- Line 58: `Array.isArray(result) ? result[0] ?? {} : result ?? {}`. -/
def outputLegacy (result : JSVal) : JSVal :=
  match result with
  | .arr l => (l.headD .null).nullishD (.obj [])
  | v => v.nullishD (.obj [])

/-- Lines 60–62: `Array.isArray(output?.classification) ?
output.classification : []`. -/
def classificationData (result : JSVal) : List JSVal :=
  ((outputLegacy result).get "classification").asArray

/-- Line 63: `Array.isArray(output?.clusters) ? output.clusters : []`. -/
def clusterData (result : JSVal) : List JSVal :=
  ((outputLegacy result).get "clusters").asArray

/-- The result of `buildCounts` (lines 66–76): sorted labels, their
occurrence counts, and the input length. -/
structure CountsResult where
  labels : List ℚ
  values : List ℕ
  total : ℕ

/-- The keys of the `counts` record built by lines 67–71, i.e. the input's
distinct values in first-occurrence (insertion) order. -/
def recordKeys (arr : List ℚ) : List ℚ :=
  arr.foldl (fun ks v => if v ∈ ks then ks else ks ++ [v]) []

/-- `buildCounts` (lines 66–76): count each distinct value, sort the
record's keys with the numeric comparator `(a, b) => Number(a) - Number(b)`,
and read each label's count back off the record. -/
def buildCounts (arr : List ℚ) : CountsResult :=
  let labels := (recordKeys arr).insertionSort (· ≤ ·)
  { labels := labels
    values := labels.map (fun l => arr.count l)
    total := arr.length }

/-- `toFixed(1)` on a rational: round to one decimal place (ties to the
larger value, as `Number.prototype.toFixed` specifies). -/
def toFixed1 (q : ℚ) : ℚ := (round (q * 10) : ℤ) / 10

/-- The percentage displayed for label index `i` (lines 345–346:
`const val = classification.values[idx] ?? 0; const pct =
classification.total ? ((val / classification.total) * 100).toFixed(1) :
"0.0"`), as the rational value the displayed string denotes. -/
def pctDisplay (b : CountsResult) (i : ℕ) : ℚ :=
  if b.total ≠ 0 then toFixed1 ((b.values.getD i 0 : ℚ) / (b.total : ℚ) * 100) else 0

/-! ## Rich-shape Result Presenter — `src/unnamed/part_000` -/

/-- Line 59: `const output = result ?? {}` (note: no array unwrapping in
this page variant). -/
def outputRich (result : JSVal) : JSVal := result.nullishD (.obj [])

/-- Line 60: `output.summary ?? {}`. -/
def summaryOf (result : JSVal) : JSVal :=
  ((outputRich result).get "summary").nullishD (.obj [])

/-- Line 61: `output.cluster_profiles ?? {}`. -/
def clusterProfilesOf (result : JSVal) : JSVal :=
  ((outputRich result).get "cluster_profiles").nullishD (.obj [])

/-- Line 62: `Array.isArray(output.predictions_preview) ?
output.predictions_preview : []`. -/
def predictionsPreviewOf (result : JSVal) : List JSVal :=
  ((outputRich result).get "predictions_preview").asArray

/-- Line 63: `output.recommendation ?? {}`. -/
def recommendationOf (result : JSVal) : JSVal :=
  ((outputRich result).get "recommendation").nullishD (.obj [])

/-- Line 66: `summary.class_distribution ?? {}`. -/
def classDistributionOf (result : JSVal) : JSVal :=
  ((summaryOf result).get "class_distribution").nullishD (.obj [])

/-- Line 67: `summary.total_windows ?? 0`. -/
def totalWindowsOf (result : JSVal) : JSVal :=
  ((summaryOf result).get "total_windows").nullishD (.num 0)

/-- Line 68: `summary.dominant_workload_type ?? "Unknown"`. -/
def dominantWorkloadOf (result : JSVal) : JSVal :=
  ((summaryOf result).get "dominant_workload_type").nullishD (.str "Unknown")

/-- Line 71: `Object.keys(classDistribution)`. -/
def classLabelsOf (result : JSVal) : List String :=
  (classDistributionOf result).objKeys

/-- Line 72: `Object.values(classDistribution)`. -/
def classValuesOf (result : JSVal) : List JSVal :=
  (classDistributionOf result).objValues

/-- Line 75: `Object.keys(clusterProfiles)`. -/
def clusterLabelsOf (result : JSVal) : List String :=
  (clusterProfilesOf result).objKeys

/-- Line 76: `clusterLabels.map(id => clusterProfiles[id]?.members ?? 0)`. -/
def clusterValuesOf (result : JSVal) : List JSVal :=
  (clusterLabelsOf result).map
    (fun id => (((clusterProfilesOf result).get id).get "members").nullishD (.num 0))

/-- One entry's contribution to `confidenceValues` (line 79:
`predictionsPreview.map((p: any) => p.confidence ?? 0)`), as the numeric
value it denotes.  The modeled entries carry numeric or absent/null
confidences (the shapes the arithmetic of lines 80–90 is written for). -/
def confValue (p : JSVal) : ℚ :=
  match p.get "confidence" with
  | .num q => q
  | _ => 0

/-- Line 79: the list of per-entry confidences with `?? 0` defaults. -/
def confidenceValuesOf (result : JSVal) : List ℚ :=
  (predictionsPreviewOf result).map confValue

/-- Lines 80–82: `confidenceValues.length > 0 ?
confidenceValues.reduce((a, b) => a + b, 0) / confidenceValues.length : 0`. -/
def avgConfidence (cv : List ℚ) : ℚ :=
  if cv.length > 0 then cv.sum / (cv.length : ℚ) else 0

/-- The filter of line 86: `c >= 0.8`. -/
def inHigh (c : ℚ) : Bool := decide ((0.8 : ℚ) ≤ c)

/-- The filter of line 87: `c >= 0.6 && c < 0.8`. -/
def inMedium (c : ℚ) : Bool := decide ((0.6 : ℚ) ≤ c) && decide (c < (0.8 : ℚ))

/-- The filter of line 88: `c >= 0.4 && c < 0.6`. -/
def inLow (c : ℚ) : Bool := decide ((0.4 : ℚ) ≤ c) && decide (c < (0.6 : ℚ))

/-- The filter of line 89: `c < 0.4`. -/
def inVeryLow (c : ℚ) : Bool := decide (c < (0.4 : ℚ))

/-- The four bucket counts of the `confidenceRanges` object
(lines 85–90). -/
structure ConfidenceRanges where
  high : ℕ
  medium : ℕ
  low : ℕ
  veryLow : ℕ
  deriving DecidableEq

/-- Lines 85–90: group the confidence values into the four fixed ranges
by filtering with each range's predicate and counting. -/
def confidenceRanges (cv : List ℚ) : ConfidenceRanges where
  high := (cv.filter inHigh).length
  medium := (cv.filter inMedium).length
  low := (cv.filter inLow).length
  veryLow := (cv.filter inVeryLow).length

/-! ## The spec's claimed shape-detection procedure (for claim C8)

Modelled from the spec's words ("Detect shape: if `result` is an array,
take element 0; if it has a `summary` key, treat as rich shape; else treat
as legacy shape"), to be compared with what the two page variants actually
do. -/

/-- The claimed first step: unwrap a top-level array to its element 0. -/
def specDetectOutput (result : JSVal) : JSVal :=
  match result with
  | .arr l => l.headD .null
  | v => v

/-- The two shapes the spec's procedure chooses between. -/
inductive SpecShape where
  | rich : SpecShape
  | legacy : SpecShape
  deriving DecidableEq

/-- The claimed dispatch: a `summary` key on the (unwrapped) output means
rich shape, anything else legacy shape. -/
def specShape (result : JSVal) : SpecShape :=
  if (specDetectOutput result).hasKey "summary" then .rich else .legacy

/-- `total_windows` as the claimed procedure would derive it on an input
it detects as rich: read through the unwrapped element's `summary`. -/
def specTotalWindows (result : JSVal) : JSVal :=
  ((((specDetectOutput result).get "summary").nullishD (.obj [])).get
    "total_windows").nullishD (.num 0)

/-! ## Gateway lemmas -/

/-- The loop's verdict on the first non-queued outcome it meets: a
returned value becomes the 200 success response, a thrown error
propagates. -/
def firstResult : UpstreamOutcome → Except JSVal HttpResponse
  | .ret v => .ok ⟨200, successBody v⟩
  | .thrown e => .error e

/-- One iteration of the retry loop, with the recursive call kept
folded. -/
theorem runLoop_cons (o : UpstreamOutcome) (rest : List UpstreamOutcome) :
    runLoop (o :: rest) =
      if isQueuedOutcome o then
        if rest.isEmpty then (.ok ⟨202, stillQueuedBody⟩, 1)
        else ((runLoop rest).1, (runLoop rest).2 + 1)
      else (firstResult o, 1) := by
  cases o <;> rfl

theorem runLoop_all_queued (l : List UpstreamOutcome)
    (h : ∀ o ∈ l, isQueuedOutcome o = true) :
    runLoop l = (.ok ⟨202, stillQueuedBody⟩, l.length) := by
  induction l with
  | nil => rfl
  | cons o rest ih =>
    have ho := h o (by simp)
    have hrest : ∀ o' ∈ rest, isQueuedOutcome o' = true :=
      fun o' ho' => h o' (by simp [ho'])
    rw [runLoop_cons]
    simp only [ho, if_true]
    cases rest with
    | nil => simp
    | cons b bs =>
      rw [ih hrest]
      simp

theorem runLoop_queued_prefix (pre : List UpstreamOutcome)
    (o : UpstreamOutcome) (rest : List UpstreamOutcome)
    (hpre : ∀ x ∈ pre, isQueuedOutcome x = true)
    (ho : isQueuedOutcome o = false) :
    runLoop (pre ++ o :: rest) = (firstResult o, pre.length + 1) := by
  induction pre with
  | nil =>
    rw [List.nil_append, runLoop_cons, ho]
    simp
  | cons q pre ih =>
    have hq := hpre q (by simp)
    have hpre' : ∀ x ∈ pre, isQueuedOutcome x = true :=
      fun x hx => hpre x (by simp [hx])
    have hne : (pre ++ o :: rest).isEmpty = false := by
      cases pre <;> simp
    rw [List.cons_append, runLoop_cons, hq]
    simp only [if_true, hne, Bool.false_eq_true, if_false, ih hpre']
    simp only [List.length_cons]

theorem attemptOutcomes_length (u : ℕ → UpstreamOutcome) (n : ℕ) :
    (attemptOutcomes u n).length = n := by
  simp [attemptOutcomes]

theorem mem_attemptOutcomes {u : ℕ → UpstreamOutcome} {n : ℕ} {o : UpstreamOutcome}
    (h : o ∈ attemptOutcomes u n) : ∃ i, 1 ≤ i ∧ i ≤ n ∧ o = u i := by
  simp only [attemptOutcomes, List.mem_map, List.mem_range] at h
  obtain ⟨i, hi, rfl⟩ := h
  exact ⟨i + 1, by omega, by omega, rfl⟩

theorem attemptOutcomes_succ (u : ℕ → UpstreamOutcome) (n : ℕ) :
    attemptOutcomes u (n + 1) = attemptOutcomes u n ++ [u (n + 1)] := by
  simp [attemptOutcomes, List.range_succ]

theorem attemptOutcomes_split (u : ℕ → UpstreamOutcome) {k n : ℕ} (h : k < n) :
    ∃ rest, attemptOutcomes u n = attemptOutcomes u k ++ u (k + 1) :: rest := by
  induction n with
  | zero => omega
  | succ n ih =>
    rcases Nat.lt_or_ge k n with hkn | hkn
    · obtain ⟨rest, hrest⟩ := ih hkn
      exact ⟨rest ++ [u (n + 1)], by
        simp [attemptOutcomes_succ, hrest]⟩
    · have hk : k = n := by omega
      subst hk
      exact ⟨[], by rw [attemptOutcomes_succ]⟩

/-- When a request reaches the upstream service, the handler's outcome is
decided by the retry loop (with the finally-block unlink and the single
connect recorded). -/
theorem handler_reaches (env : Env) (req : Request) (h : ReachesUpstream env req) :
    handler env req =
      (match runLoop (attemptOutcomes env.upstream maxAttempts) with
       | (.ok resp, n) => ⟨resp, 1, 1, n⟩
       | (.error e, n) => ⟨catchResponse e, 1, 1, n⟩) := by
  obtain ⟨files, entry, f, hm, hform, hentry, hef, hpath, hread, hconn⟩ := h
  simp [handler, hm, hform, hentry, hef, hpath, hread, hconn]

/-- The two sentinel detectors (line 65 for returned values, line 80 for
thrown ones) agree on every value of the model. -/
theorem isQueuedRet_eq_isQueuedErr (v : JSVal) : isQueuedRet v = isQueuedErr v := by
  cases v <;> simp [isQueuedRet, isQueuedErr, JSVal.get, JSVal.truthy,
    JSVal.isObject, JSVal.strEq]

/-! ## Witness fixtures -/

/-- A well-formed POST request carrying one file whose `filepath` is `p`. -/
def postReq (p : String) : Request :=
  ⟨"POST", .ok ⟨some (.one ⟨some p, none, none⟩), none⟩⟩

/-- An environment whose file read and connect succeed, with upstream
outcomes given by `u`. -/
def okEnv (u : ℕ → UpstreamOutcome) : Env :=
  ⟨fun _ => .ok (), .ok (), u⟩

theorem reaches_fixture (u : ℕ → UpstreamOutcome) (p : String) (hp : p ≠ "") :
    ReachesUpstream (okEnv u) (postReq p) :=
  ⟨_, _, _, rfl, rfl, rfl, rfl, by simp [pathTruthy, resolvePath, Option.orElse, hp],
    rfl, rfl⟩

/-! ## Claims about the Inference Gateway -/

/-- C1: if the upstream yields the queued sentinel (in either its returned
or its thrown form) on the first `k` attempts with `k < 12` and a
non-queued returned result on attempt `k + 1`, the handler responds 200
with that result's payload after exactly `k + 1` upstream calls; if all 12
attempts yield the sentinel, the handler responds 202 with
`{ queued: true, message: "Prediction queued, try again later" }` (not an
error) after exactly 12 upstream calls; and the two sentinel forms are
detected identically. -/
theorem gateway_retry_protocol (env : Env) (req : Request)
    (hreach : ReachesUpstream env req) :
    (∀ v, isQueuedRet v = isQueuedErr v) ∧
    (∀ k, k < 12 →
      (∀ i, 1 ≤ i → i ≤ k → isQueuedOutcome (env.upstream i) = true) →
      ∀ v, env.upstream (k + 1) = .ret v → isQueuedRet v = false →
        (handler env req).response = ⟨200, successBody v⟩ ∧
        (handler env req).predicts = k + 1 ∧ k + 1 ≤ 12) ∧
    ((∀ i, 1 ≤ i → i ≤ 12 → isQueuedOutcome (env.upstream i) = true) →
      (handler env req).response = ⟨202, stillQueuedBody⟩ ∧
      (handler env req).predicts = 12) := by
  rw [handler_reaches env req hreach]
  refine ⟨isQueuedRet_eq_isQueuedErr, ?_, ?_⟩
  · intro k hk hq v hv hnq
    obtain ⟨rest, hsplit⟩ :=
      attemptOutcomes_split env.upstream (show k < maxAttempts by
        simpa [maxAttempts] using hk)
    rw [hv] at hsplit
    have hpre : ∀ x ∈ attemptOutcomes env.upstream k, isQueuedOutcome x = true := by
      intro x hx
      obtain ⟨i, h1, h2, rfl⟩ := mem_attemptOutcomes hx
      exact hq i h1 h2
    have hrun := runLoop_queued_prefix _ _ rest hpre
      (show isQueuedOutcome (.ret v) = false by simpa [isQueuedOutcome] using hnq)
    rw [hsplit, hrun, attemptOutcomes_length]
    exact ⟨rfl, rfl, by omega⟩
  · intro hq
    have hall : ∀ o ∈ attemptOutcomes env.upstream maxAttempts,
        isQueuedOutcome o = true := by
      intro o ho
      obtain ⟨i, h1, h2, rfl⟩ := mem_attemptOutcomes ho
      exact hq i h1 (by simpa [maxAttempts] using h2)
    rw [runLoop_all_queued _ hall, attemptOutcomes_length]
    exact ⟨rfl, rfl⟩

/-- Witness for `gateway_retry_protocol`: an upstream that answers
immediately with the non-queued value `7` yields a 200 response after one
call. -/
theorem gateway_retry_protocol_witness :
    (handler (okEnv fun _ => .ret (.num 7)) (postReq "tmp")).response =
      ⟨200, successBody (.num 7)⟩ ∧
    (handler (okEnv fun _ => .ret (.num 7)) (postReq "tmp")).predicts = 1 := by
  have h := (gateway_retry_protocol (okEnv fun _ => .ret (.num 7)) (postReq "tmp")
      (reaches_fixture _ _ (by decide))).2.1 0 (by omega)
      (fun i h1 h2 => absurd (h1.trans h2) (by omega)) (.num 7) rfl (by decide)
  exact ⟨h.1, h.2.1⟩

/-- C2: the `finally` block (lines 110–116) deletes the temporary upload
exactly once on every exit path on which a (truthy) upload path was
obtained, and attempts no deletion on paths where none was obtained. -/
theorem gateway_temp_cleanup (env : Env) (req : Request) :
    (handler env req).unlinks = if obtainsPath req then 1 else 0 := by
  unfold handler obtainsPath
  by_cases hm : req.method = "POST"
  · have hbeq : (req.method == "POST") = true := by simp [hm]
    cases hform : req.form with
    | error e => simp [hm, hbeq, hform]
    | ok files =>
      cases hentry : files.file.orElse (fun _ => files.upload) with
      | none => simp [hm, hbeq, hform, hentry]
      | some entry =>
        cases hef : entryFile entry with
        | none => simp [hm, hbeq, hform, hentry, hef]
        | some f =>
          cases hpt : pathTruthy (resolvePath f) with
          | false => simp [hm, hbeq, hform, hentry, hef, hpt]
          | true =>
            cases hread : env.readFile ((resolvePath f).getD "") with
            | error e => simp [hm, hbeq, hform, hentry, hef, hpt, hread]
            | ok u =>
              cases hconn : env.connect with
              | error e => simp [hm, hbeq, hform, hentry, hef, hpt, hread, hconn]
              | ok u' =>
                rcases hrl : runLoop (attemptOutcomes env.upstream maxAttempts) with
                  ⟨res, n⟩
                cases res <;>
                  simp [hm, hbeq, hform, hentry, hef, hpt, hread, hconn, hrl]
  · have hbeq : (req.method == "POST") = false := by simpa using hm
    simp [hm, hbeq]

/-- C3: a non-queued thrown upstream failure at attempt `k` (after queued
sentinels on attempts `1..k-1`) stops the loop immediately — exactly `k`
upstream calls — and produces a 500 response whose `error` field is the
best available message of the thrown error (its `message`, else its JSON
serialization, else its string form, else `"Prediction error"`). -/
theorem gateway_nonqueued_error (env : Env) (req : Request)
    (hreach : ReachesUpstream env req)
    (k : ℕ) (hk1 : 1 ≤ k) (hk : k ≤ 12)
    (hpre : ∀ i, 1 ≤ i → i < k → isQueuedOutcome (env.upstream i) = true)
    (e : JSVal) (he : env.upstream k = .thrown e) (hnq : isQueuedErr e = false) :
    (handler env req).predicts = k ∧
    (handler env req).response.status = 500 ∧
    (handler env req).response.body = .obj [("error", bestMessage e)] := by
  rw [handler_reaches env req hreach]
  obtain ⟨m, rfl⟩ : ∃ m, k = m + 1 := ⟨k - 1, by omega⟩
  obtain ⟨rest, hsplit⟩ :=
    attemptOutcomes_split env.upstream (show m < maxAttempts by
      simp only [maxAttempts]; omega)
  rw [he] at hsplit
  have hprem : ∀ x ∈ attemptOutcomes env.upstream m, isQueuedOutcome x = true := by
    intro x hx
    obtain ⟨i, h1, h2, rfl⟩ := mem_attemptOutcomes hx
    exact hpre i h1 (by omega)
  have hrun := runLoop_queued_prefix _ _ rest hprem
    (show isQueuedOutcome (.thrown e) = false by simpa [isQueuedOutcome] using hnq)
  rw [hsplit, hrun, attemptOutcomes_length]
  refine ⟨rfl, ?_, ?_⟩ <;> simp [firstResult, catchResponse, hnq]

/-- Witness for `gateway_nonqueued_error`: an upstream throwing
`{ message: "boom" }` on the first attempt yields one upstream call and a
500 whose error field is `"boom"`. -/
theorem gateway_nonqueued_error_witness :
    (handler (okEnv fun _ => .thrown (.obj [("message", .str "boom")]))
      (postReq "tmp")).predicts = 1 ∧
    (handler (okEnv fun _ => .thrown (.obj [("message", .str "boom")]))
      (postReq "tmp")).response.status = 500 ∧
    (handler (okEnv fun _ => .thrown (.obj [("message", .str "boom")]))
      (postReq "tmp")).response.body =
        .obj [("error", bestMessage (.obj [("message", .str "boom")]))] :=
  gateway_nonqueued_error _ _ (reaches_fixture _ _ (by decide)) 1 (by omega)
    (by omega) (fun i h1 h2 => absurd (h1.trans_lt h2) (by omega))
    (.obj [("message", .str "boom")]) rfl (by decide)

/-- C4: a POST whose parsed form has no file under `file` or `upload` is
answered 400 `{ error: "No file uploaded" }` with no `Client.connect` and
no `client.predict` call. -/
theorem gateway_no_file_400 (env : Env) (req : Request) (files : FormFields)
    (hm : req.method = "POST") (hform : req.form = .ok files)
    (hfile : files.file = none) (hupload : files.upload = none) :
    (handler env req).response = ⟨400, errObj "No file uploaded"⟩ ∧
    (handler env req).connects = 0 ∧
    (handler env req).predicts = 0 := by
  simp [handler, hm, hform, hfile, hupload, Option.orElse]

/-- Witness for `gateway_no_file_400` at a concrete fileless request. -/
theorem gateway_no_file_400_witness :
    (handler (okEnv fun _ => .ret .null) ⟨"POST", .ok ⟨none, none⟩⟩).response =
      ⟨400, errObj "No file uploaded"⟩ ∧
    (handler (okEnv fun _ => .ret .null) ⟨"POST", .ok ⟨none, none⟩⟩).connects = 0 ∧
    (handler (okEnv fun _ => .ret .null) ⟨"POST", .ok ⟨none, none⟩⟩).predicts = 0 :=
  gateway_no_file_400 _ _ ⟨none, none⟩ rfl rfl rfl rfl

/-- C5: a non-queued, non-null value returned by the upstream on the first
attempt is answered 200 with the raw payload passed through verbatim: the
body is `result.data` when that field is truthy and otherwise `result`
itself — in both cases an untransformed part of the upstream value. -/
theorem gateway_success_verbatim (env : Env) (req : Request)
    (hreach : ReachesUpstream env req)
    (v : JSVal) (hv : env.upstream 1 = .ret v) (hnq : isQueuedRet v = false)
    (hnn : v ≠ .null) :
    (handler env req).response.status = 200 ∧
    (handler env req).response.body =
      (if (v.get "data").truthy then v.get "data" else v) ∧
    ((handler env req).response.body = v.get "data" ∨
      (handler env req).response.body = v) := by
  rw [handler_reaches env req hreach]
  obtain ⟨rest, hsplit⟩ :=
    attemptOutcomes_split env.upstream (show 0 < maxAttempts by
      simp [maxAttempts])
  rw [hv] at hsplit
  have hrun := runLoop_queued_prefix (attemptOutcomes env.upstream 0) _ rest
    (by intro x hx; simp [attemptOutcomes] at hx)
    (show isQueuedOutcome (.ret v) = false by simpa [isQueuedOutcome] using hnq)
  rw [hsplit, hrun]
  have hbody : successBody v = if (v.get "data").truthy then v.get "data" else v := by
    simp [successBody, JSVal.nullishD_of_ne_null hnn]
  refine ⟨rfl, hbody, ?_⟩
  show successBody v = v.get "data" ∨ successBody v = v
  rw [hbody]
  by_cases hd : (v.get "data").truthy = true
  · exact Or.inl (by simp [hd])
  · exact Or.inr (by simp [hd])

/-- Witness for `gateway_success_verbatim`: the upstream returns
`{ data: [3] }`; the body is its `data` array verbatim. -/
theorem gateway_success_verbatim_witness :
    (handler (okEnv fun _ => .ret (.obj [("data", .arr [.num 3])]))
      (postReq "tmp")).response.status = 200 ∧
    (handler (okEnv fun _ => .ret (.obj [("data", .arr [.num 3])]))
      (postReq "tmp")).response.body =
      (if ((JSVal.obj [("data", .arr [.num 3])]).get "data").truthy
        then (JSVal.obj [("data", .arr [.num 3])]).get "data"
        else .obj [("data", .arr [.num 3])]) ∧
    ((handler (okEnv fun _ => .ret (.obj [("data", .arr [.num 3])]))
      (postReq "tmp")).response.body =
        (JSVal.obj [("data", .arr [.num 3])]).get "data" ∨
     (handler (okEnv fun _ => .ret (.obj [("data", .arr [.num 3])]))
      (postReq "tmp")).response.body = .obj [("data", .arr [.num 3])]) :=
  gateway_success_verbatim _ _ (reaches_fixture _ _ (by decide)) _ rfl (by decide)
    (by intro h; cases h)

/-! ## Claims about the legacy Presenter's frequency table -/

theorem recordKeys_aux_nodup (arr : List ℚ) :
    ∀ acc : List ℚ, acc.Nodup →
      (arr.foldl (fun ks v => if v ∈ ks then ks else ks ++ [v]) acc).Nodup := by
  induction arr with
  | nil => exact fun acc h => h
  | cons x xs ih =>
    intro acc h
    simp only [List.foldl_cons]
    by_cases hx : x ∈ acc
    · simpa [hx] using ih acc h
    · have hacc : (acc ++ [x]).Nodup := by
        simp [List.nodup_append, h, hx]
      simpa [hx] using ih _ hacc

theorem recordKeys_aux_mem (arr : List ℚ) :
    ∀ (acc : List ℚ) (y : ℚ),
      (y ∈ arr.foldl (fun ks v => if v ∈ ks then ks else ks ++ [v]) acc ↔
        y ∈ acc ∨ y ∈ arr) := by
  induction arr with
  | nil => simp
  | cons x xs ih =>
    intro acc y
    simp only [List.foldl_cons]
    by_cases hx : x ∈ acc
    · rw [if_pos hx, ih acc y]
      simp only [List.mem_cons]
      constructor
      · rintro (h | h)
        · exact Or.inl h
        · exact Or.inr (Or.inr h)
      · rintro (h | rfl | h)
        · exact Or.inl h
        · exact Or.inl hx
        · exact Or.inr h
    · rw [if_neg hx, ih _ y]
      simp only [List.mem_append, List.mem_singleton, List.mem_cons]
      tauto

theorem recordKeys_nodup (arr : List ℚ) : (recordKeys arr).Nodup :=
  recordKeys_aux_nodup arr [] List.nodup_nil

theorem mem_recordKeys (arr : List ℚ) (y : ℚ) : y ∈ recordKeys arr ↔ y ∈ arr := by
  rw [recordKeys, recordKeys_aux_mem]
  simp

theorem buildCounts_labels_perm_dedup (arr : List ℚ) :
    (buildCounts arr).labels.Perm arr.dedup := by
  have hperm : (buildCounts arr).labels.Perm (recordKeys arr) :=
    List.perm_insertionSort _ _
  have hnd : (buildCounts arr).labels.Nodup :=
    hperm.nodup_iff.2 (recordKeys_nodup arr)
  refine (List.perm_ext_iff_of_nodup hnd (List.nodup_dedup arr)).2 fun a => ?_
  rw [hperm.mem_iff, mem_recordKeys, List.mem_dedup]

/-- C6: `buildCounts` derives labels that are exactly the distinct input
values in strictly ascending order, counts summing to the input length,
and each label's displayed percentage is `count / total * 100` rounded to
one decimal, every percentage being `0.0` when the total is zero. -/
theorem buildCounts_frequency_table (arr : List ℚ) :
    (buildCounts arr).labels.Sorted (· < ·) ∧
    (∀ x : ℚ, x ∈ (buildCounts arr).labels ↔ x ∈ arr) ∧
    (buildCounts arr).values.sum = arr.length ∧
    (buildCounts arr).total = arr.length ∧
    (∀ i, i < (buildCounts arr).labels.length →
      pctDisplay (buildCounts arr) i =
        toFixed1 ((arr.count ((buildCounts arr).labels.getD i 0) : ℚ) /
          (arr.length : ℚ) * 100)) ∧
    (arr.length = 0 → ∀ i, pctDisplay (buildCounts arr) i = 0) := by
  have hperm : (buildCounts arr).labels.Perm (recordKeys arr) :=
    List.perm_insertionSort _ _
  have hnd : (buildCounts arr).labels.Nodup :=
    hperm.nodup_iff.2 (recordKeys_nodup arr)
  have hsortedLe : (buildCounts arr).labels.Sorted (· ≤ ·) :=
    List.sorted_insertionSort _ _
  have hmem : ∀ x : ℚ, x ∈ (buildCounts arr).labels ↔ x ∈ arr := fun x => by
    rw [hperm.mem_iff, mem_recordKeys]
  refine ⟨hsortedLe.lt_of_le hnd, hmem, ?_, rfl, ?_, ?_⟩
  · have h1 : (buildCounts arr).values =
        (buildCounts arr).labels.map fun l => arr.count l := rfl
    have h2 := ((buildCounts_labels_perm_dedup arr).map
      fun l => arr.count l).sum_eq
    rw [h1, h2, List.sum_map_count_dedup_eq_length]
  · intro i hi
    have hne : arr ≠ [] := by
      intro h
      subst h
      have hempty : (buildCounts ([] : List ℚ)).labels = [] :=
        List.eq_nil_iff_forall_not_mem.2 fun x hx => by
          simpa using (hmem x).1 hx
      rw [hempty] at hi
      simp at hi
    have hlen0 : arr.length ≠ 0 := by
      simpa [List.length_eq_zero] using hne
    have h1 : (buildCounts arr).values =
        (buildCounts arr).labels.map fun l => arr.count l := rfl
    have hvlen : i < ((buildCounts arr).labels.map fun l => arr.count l).length := by
      simpa using hi
    have hv : (buildCounts arr).values.getD i 0 =
        arr.count ((buildCounts arr).labels.getD i 0) := by
      rw [h1, List.getD_eq_getElem _ _ hvlen, List.getD_eq_getElem _ _ hi,
        List.getElem_map]
    show (if (buildCounts arr).total ≠ 0 then
        toFixed1 (((buildCounts arr).values.getD i 0 : ℚ) /
          ((buildCounts arr).total : ℚ) * 100)
      else 0) = _
    rw [show (buildCounts arr).total = arr.length from rfl, if_pos hlen0, hv]
  · intro h0 i
    simp [pctDisplay, buildCounts, h0]

/-- Witness for `buildCounts_frequency_table` at the concrete input
`[2, 1, 2]`: the first label's displayed percentage is its count over 3,
times 100, rounded to one decimal. -/
theorem buildCounts_frequency_table_witness :
    pctDisplay (buildCounts [2, 1, 2]) 0 =
      toFixed1 ((([2, 1, 2] : List ℚ).count
        ((buildCounts [2, 1, 2]).labels.getD 0 0) : ℚ) /
        (([2, 1, 2] : List ℚ).length : ℚ) * 100) :=
  (buildCounts_frequency_table [2, 1, 2]).2.2.2.2.1 0 (by decide)

/-! ## Claims about the rich Presenter's confidence bucketing -/

/-- Every rational falls in exactly one of the four code buckets. -/
theorem bucket_indicator (c : ℚ) :
    (inHigh c).toNat + (inMedium c).toNat + (inLow c).toNat +
      (inVeryLow c).toNat = 1 := by
  unfold inHigh inMedium inLow inVeryLow
  rcases lt_or_le c 0.4 with h | h
  · have h2 : ¬ (0.8 : ℚ) ≤ c := by linarith
    have h3 : ¬ (0.6 : ℚ) ≤ c := by linarith
    have h4 : ¬ (0.4 : ℚ) ≤ c := by linarith
    simp [h, h2, h3, h4]
  · rcases lt_or_le c 0.6 with h5 | h5
    · have h2 : ¬ (0.8 : ℚ) ≤ c := by linarith
      have h3 : ¬ (0.6 : ℚ) ≤ c := by linarith
      have h4 : ¬ c < (0.4 : ℚ) := by linarith
      simp [h, h2, h3, h4, h5]
    · rcases lt_or_le c 0.8 with h6 | h6
      · have h2 : ¬ (0.8 : ℚ) ≤ c := by linarith
        have h4 : ¬ c < (0.4 : ℚ) := by linarith
        have h7 : ¬ c < (0.6 : ℚ) := by linarith
        simp [h2, h4, h5, h6, h7]
      · have h4 : ¬ c < (0.4 : ℚ) := by linarith
        have h7 : ¬ c < (0.6 : ℚ) := by linarith
        have h8 : ¬ c < (0.8 : ℚ) := by linarith
        simp [h4, h6, h7, h8]

theorem confidenceRanges_total (cv : List ℚ) :
    (confidenceRanges cv).high + (confidenceRanges cv).medium +
      (confidenceRanges cv).low + (confidenceRanges cv).veryLow = cv.length := by
  simp only [confidenceRanges, ← List.countP_eq_length_filter]
  induction cv with
  | nil => rfl
  | cons c rest ih =>
    have hc := bucket_indicator c
    simp only [List.countP_cons, List.length_cons]
    cases h1 : inHigh c <;> cases h2 : inMedium c <;> cases h3 : inLow c <;>
        cases h4 : inVeryLow c <;>
      simp [h1, h2, h3, h4] at hc ⊢ <;> omega

/-- C7: on confidence values in `[0, 1]` the four code buckets are the
claimed intervals — High `[0.8, 1]` (1 included), Medium `[0.6, 0.8)`,
Low `[0.4, 0.6)`, Very Low `[0, 0.4)` — each value falls in exactly one
bucket, the four counts sum to the list length, and the example
`[0.9, 0.85, 0.7, 0.5, 0.2]` gives High 2, Medium 1, Low 1, Very Low 1. -/
theorem confidence_bucket_partition (cv : List ℚ)
    (hr : ∀ c ∈ cv, 0 ≤ c ∧ c ≤ 1) :
    ((confidenceRanges cv).high + (confidenceRanges cv).medium +
      (confidenceRanges cv).low + (confidenceRanges cv).veryLow = cv.length) ∧
    (∀ c ∈ cv,
      (inHigh c = true ↔ 0.8 ≤ c ∧ c ≤ 1) ∧
      (inMedium c = true ↔ 0.6 ≤ c ∧ c < 0.8) ∧
      (inLow c = true ↔ 0.4 ≤ c ∧ c < 0.6) ∧
      (inVeryLow c = true ↔ 0 ≤ c ∧ c < 0.4) ∧
      (inHigh c).toNat + (inMedium c).toNat + (inLow c).toNat +
        (inVeryLow c).toNat = 1) ∧
    confidenceRanges [0.9, 0.85, 0.7, 0.5, 0.2] = ⟨2, 1, 1, 1⟩ := by
  refine ⟨confidenceRanges_total cv, ?_, by
    norm_num [confidenceRanges, List.filter_cons, inHigh, inMedium, inLow, inVeryLow]⟩
  intro c hc
  obtain ⟨h0, h1⟩ := hr c hc
  refine ⟨?_, ?_, ?_, ?_, bucket_indicator c⟩
  · simp only [inHigh, decide_eq_true_eq]
    exact ⟨fun h => ⟨h, h1⟩, fun h => h.1⟩
  · simp only [inMedium, Bool.and_eq_true, decide_eq_true_eq]
  · simp only [inLow, Bool.and_eq_true, decide_eq_true_eq]
  · simp only [inVeryLow, decide_eq_true_eq]
    exact ⟨fun h => ⟨h0, h⟩, fun h => h.2⟩

/-- Witness for `confidence_bucket_partition`: on the example list the
bucket counts sum to 5. -/
theorem confidence_bucket_partition_witness :
    (confidenceRanges [0.9, 0.85, 0.7, 0.5, 0.2]).high +
      (confidenceRanges [0.9, 0.85, 0.7, 0.5, 0.2]).medium +
      (confidenceRanges [0.9, 0.85, 0.7, 0.5, 0.2]).low +
      (confidenceRanges [0.9, 0.85, 0.7, 0.5, 0.2]).veryLow = 5 :=
  (confidence_bucket_partition [0.9, 0.85, 0.7, 0.5, 0.2] (by norm_num)).1

/-! ## Claims about view-model totality and defaults -/

theorem isNull_eq_true_iff (v : JSVal) : v.isNull = true ↔ v = .null := by
  cases v <;> simp [JSVal.isNull]

theorem asArray_eq_nil_of_not_isArr {v : JSVal} (h : v.isArr = false) :
    v.asArray = [] := by
  cases v <;> simp [JSVal.isArr, JSVal.asArray] at h ⊢

/-- C9: the view-model derivation (in both page variants) is total — it is
a plain function on all of `JSVal` — and every absent field yields its
empty/zero default, independently for each field: a `null`/non-object
result gives the fully default model, a missing `summary` defaults the
summary-derived fields, a missing `class_distribution`,
`cluster_profiles`, `predictions_preview` or `recommendation` defaults its
derived fields, and a missing/non-array `classification` or `clusters`
defaults the legacy arrays. -/
theorem derive_view_model_total (r : JSVal) :
    (r = .null →
      outputRich r = .obj [] ∧ totalWindowsOf r = .num 0 ∧
      dominantWorkloadOf r = .str "Unknown" ∧ classLabelsOf r = [] ∧
      clusterLabelsOf r = [] ∧ predictionsPreviewOf r = [] ∧
      avgConfidence (confidenceValuesOf r) = 0 ∧ recommendationOf r = .obj [] ∧
      classificationData r = [] ∧ clusterData r = []) ∧
    (((outputRich r).get "summary").isNull = true →
      summaryOf r = .obj [] ∧ totalWindowsOf r = .num 0 ∧
      dominantWorkloadOf r = .str "Unknown" ∧ classDistributionOf r = .obj [] ∧
      classLabelsOf r = [] ∧ classValuesOf r = []) ∧
    (((summaryOf r).get "class_distribution").isNull = true →
      classDistributionOf r = .obj [] ∧ classLabelsOf r = [] ∧
      classValuesOf r = []) ∧
    (((outputRich r).get "cluster_profiles").isNull = true →
      clusterProfilesOf r = .obj [] ∧ clusterLabelsOf r = [] ∧
      clusterValuesOf r = []) ∧
    (((outputRich r).get "predictions_preview").isArr = false →
      predictionsPreviewOf r = [] ∧ confidenceValuesOf r = [] ∧
      avgConfidence (confidenceValuesOf r) = 0 ∧
      confidenceRanges (confidenceValuesOf r) = ⟨0, 0, 0, 0⟩) ∧
    (((outputRich r).get "recommendation").isNull = true →
      recommendationOf r = .obj []) ∧
    (((outputLegacy r).get "classification").isArr = false →
      classificationData r = []) ∧
    (((outputLegacy r).get "clusters").isArr = false →
      clusterData r = []) := by
  refine ⟨?_, ?_, ?_, ?_, ?_, ?_, ?_, ?_⟩
  · rintro rfl
    refine ⟨rfl, rfl, rfl, rfl, rfl, rfl, rfl, rfl, rfl, rfl⟩
  · intro h
    have hs : (outputRich r).get "summary" = .null := (isNull_eq_true_iff _).1 h
    have hsum : summaryOf r = .obj [] := by
      simp [summaryOf, hs, JSVal.nullishD, JSVal.isNull]
    refine ⟨hsum, ?_, ?_, ?_, ?_, ?_⟩ <;>
      simp [totalWindowsOf, dominantWorkloadOf, classDistributionOf,
        classLabelsOf, classValuesOf, hsum, JSVal.get, JSVal.nullishD,
        JSVal.isNull, JSVal.objKeys, JSVal.objValues]
  · intro h
    have hc : (summaryOf r).get "class_distribution" = .null :=
      (isNull_eq_true_iff _).1 h
    have hcd : classDistributionOf r = .obj [] := by
      simp [classDistributionOf, hc, JSVal.nullishD, JSVal.isNull]
    exact ⟨hcd, by simp [classLabelsOf, hcd, JSVal.objKeys],
      by simp [classValuesOf, hcd, JSVal.objValues]⟩
  · intro h
    have hc : (outputRich r).get "cluster_profiles" = .null :=
      (isNull_eq_true_iff _).1 h
    have hcp : clusterProfilesOf r = .obj [] := by
      simp [clusterProfilesOf, hc, JSVal.nullishD, JSVal.isNull]
    have hcl : clusterLabelsOf r = [] := by
      simp [clusterLabelsOf, hcp, JSVal.objKeys]
    exact ⟨hcp, hcl, by simp [clusterValuesOf, hcl]⟩
  · intro h
    have hpp : predictionsPreviewOf r = [] := by
      simpa [predictionsPreviewOf] using asArray_eq_nil_of_not_isArr h
    have hcv : confidenceValuesOf r = [] := by
      simp [confidenceValuesOf, hpp]
    exact ⟨hpp, hcv, by simp [avgConfidence, hcv],
      by simp [confidenceRanges, hcv]⟩
  · intro h
    have hc : (outputRich r).get "recommendation" = .null :=
      (isNull_eq_true_iff _).1 h
    simp [recommendationOf, hc, JSVal.nullishD, JSVal.isNull]
  · intro h
    simpa [classificationData] using asArray_eq_nil_of_not_isArr h
  · intro h
    simpa [clusterData] using asArray_eq_nil_of_not_isArr h

/-- Witness for `derive_view_model_total`: the `null` result produces the
fully default rich view model. -/
theorem derive_view_model_total_witness :
    totalWindowsOf .null = .num 0 ∧ dominantWorkloadOf .null = .str "Unknown" ∧
    predictionsPreviewOf .null = [] ∧
    avgConfidence (confidenceValuesOf .null) = 0 ∧
    classificationData .null = [] :=
  ⟨((derive_view_model_total .null).1 rfl).2.1,
   ((derive_view_model_total .null).1 rfl).2.2.1,
   ((derive_view_model_total .null).1 rfl).2.2.2.2.2.1,
   ((derive_view_model_total .null).1 rfl).2.2.2.2.2.2.1,
   ((derive_view_model_total .null).1 rfl).2.2.2.2.2.2.2.2.1⟩

/-! ## Claim about absent confidences (C10) -/

/-- The confidence values actually present (numeric) in a preview list —
what a derivation that skipped absent-confidence entries would average
over. -/
def presentConfs (preview : List JSVal) : List ℚ :=
  preview.filterMap fun p =>
    match p.get "confidence" with
    | .num q => some q
    | _ => none

theorem countP_mono_of_imp {α : Type} (p q : α → Bool) (l : List α)
    (h : ∀ a ∈ l, p a = true → q a = true) : l.countP p ≤ l.countP q := by
  induction l with
  | nil => simp
  | cons a l ih =>
    have ha := h a (by simp)
    have hl : ∀ x ∈ l, p x = true → q x = true := fun x hx => h x (by simp [hx])
    simp only [List.countP_cons]
    cases hp : p a
    · have := ih hl
      simp only [Bool.false_eq_true, if_false]
      omega
    · have hq := ha hp
      simp only [hq, if_true]
      have := ih hl
      omega

theorem map_confValue_sum (preview : List JSVal)
    (hnum : ∀ p ∈ preview,
      (p.get "confidence").isNull = true ∨ ∃ q : ℚ, p.get "confidence" = .num q) :
    (preview.map confValue).sum = (presentConfs preview).sum := by
  induction preview with
  | nil => rfl
  | cons p rest ih =>
    have hp := hnum p (by simp)
    have hrest : ∀ x ∈ rest,
        (x.get "confidence").isNull = true ∨ ∃ q : ℚ, x.get "confidence" = .num q :=
      fun x hx => hnum x (by simp [hx])
    rcases hp with h | ⟨q, hq⟩
    · have h0 : p.get "confidence" = .null := (isNull_eq_true_iff _).1 h
      simp only [List.map_cons, List.sum_cons, presentConfs, List.filterMap_cons,
        confValue, h0]
      simpa [presentConfs] using ih hrest
    · simp only [List.map_cons, List.sum_cons, presentConfs, List.filterMap_cons,
        confValue, hq]
      simpa [presentConfs] using congrArg (q + ·) (ih hrest)

/-- C10: a preview entry whose `confidence` is absent or null contributes
`0`: the value list keeps its length (the entry is not skipped), such an
entry's value is `0`, the sum equals the sum of the present confidences
(so the zeros enter the arithmetic mean and can only lower it), every
absent-confidence entry lands in the Very Low bucket, and the average is
`0` for an empty preview. -/
theorem absent_confidence_zero (preview : List JSVal)
    (hobj : ∀ p ∈ preview, p.isObject = true)
    (hnum : ∀ p ∈ preview,
      (p.get "confidence").isNull = true ∨ ∃ q : ℚ, p.get "confidence" = .num q) :
    (preview.map confValue).length = preview.length ∧
    (∀ p ∈ preview, (p.get "confidence").isNull = true → confValue p = 0) ∧
    (preview.map confValue).sum = (presentConfs preview).sum ∧
    (preview.countP fun p => (p.get "confidence").isNull) ≤
      (confidenceRanges (preview.map confValue)).veryLow ∧
    (preview = [] → avgConfidence (preview.map confValue) = 0) ∧
    ((∀ q ∈ presentConfs preview, 0 ≤ q) →
      avgConfidence (preview.map confValue) ≤
        avgConfidence (presentConfs preview)) := by
  refine ⟨by simp, ?_, map_confValue_sum preview hnum, ?_, ?_, ?_⟩
  · intro p _ h
    simp [confValue, (isNull_eq_true_iff _).1 h]
  · have h1 : (confidenceRanges (preview.map confValue)).veryLow =
        preview.countP fun p => inVeryLow (confValue p) := by
      simp only [confidenceRanges, ← List.countP_eq_length_filter,
        List.countP_map]
      rfl
    rw [h1]
    refine countP_mono_of_imp _ _ _ ?_
    intro p _ h
    have h0 : confValue p = 0 := by
      simp [confValue, (isNull_eq_true_iff _).1 h]
    rw [h0]
    norm_num [inVeryLow]
  · rintro rfl
    rfl
  · intro hq
    have hsum : (preview.map confValue).sum = (presentConfs preview).sum :=
      map_confValue_sum preview hnum
    have hlen : (presentConfs preview).length ≤ (preview.map confValue).length := by
      simpa [presentConfs] using List.length_filterMap_le
        (fun p : JSVal =>
          match p.get "confidence" with
          | .num q => some q
          | _ => none) preview
    have hs0 : 0 ≤ (presentConfs preview).sum := List.sum_nonneg hq
    rcases Nat.eq_zero_or_pos (presentConfs preview).length with hp0 | hp0
    · have hpe : presentConfs preview = [] := List.length_eq_zero.1 hp0
      have hce : (preview.map confValue).sum = 0 := by
        rw [hsum, hpe]
        rfl
      rw [avgConfidence, avgConfidence, hce, hpe]
      simp
    · have hc0 : 0 < (preview.map confValue).length := lt_of_lt_of_le hp0 hlen
      rw [avgConfidence, avgConfidence, if_pos hc0, if_pos hp0, hsum]
      have hcast : ((presentConfs preview).length : ℚ) ≤
          ((preview.map confValue).length : ℚ) := by
        exact_mod_cast hlen
      have hcast0 : (0 : ℚ) < ((presentConfs preview).length : ℚ) := by
        exact_mod_cast hp0
      gcongr

/-- Witness for `absent_confidence_zero`: a two-entry preview, one entry
with confidence `0.5` and one without; the value list has length 2 and the
sums agree. -/
theorem absent_confidence_zero_witness :
    (([(.obj [("confidence", .num 0.5)] : JSVal), .obj []]).map confValue).length = 2 ∧
    (([(.obj [("confidence", .num 0.5)] : JSVal), .obj []]).map confValue).sum =
      (presentConfs [(.obj [("confidence", .num 0.5)] : JSVal), .obj []]).sum := by
  have h := absent_confidence_zero
    [(.obj [("confidence", .num 0.5)] : JSVal), .obj []]
    (by intro p hp
        rcases List.mem_cons.1 hp with rfl | hp
        · rfl
        · rcases List.mem_cons.1 hp with rfl | hp
          · rfl
          · cases hp)
    (by intro p hp
        rcases List.mem_cons.1 hp with rfl | hp
        · exact Or.inr ⟨0.5, rfl⟩
        · rcases List.mem_cons.1 hp with rfl | hp
          · exact Or.inl rfl
          · cases hp)
  exact ⟨h.1, h.2.2.1⟩

/-! ## Claim C8: the spec's shape detection vs the code -/

/-- C8 counterexample: on the concrete array-wrapped rich result
`[{ summary: { total_windows: 5 } }]` the claimed detection procedure
takes element 0, sees its `summary` key, and reads `total_windows = 5`;
the rich page variant — the only one reading `summary` — performs no
array unwrapping and derives `total_windows = 0`.  No presenter in the
code implements "array → element 0, then dispatch on `summary`". -/
theorem shape_detection_counterexample :
    specShape (.arr [.obj [("summary", .obj [("total_windows", .num 5)])]]) = .rich ∧
    specTotalWindows (.arr [.obj [("summary", .obj [("total_windows", .num 5)])]]) =
      .num 5 ∧
    totalWindowsOf (.arr [.obj [("summary", .obj [("total_windows", .num 5)])]]) =
      .num 0 ∧
    totalWindowsOf (.arr [.obj [("summary", .obj [("total_windows", .num 5)])]]) ≠
      specTotalWindows (.arr [.obj [("summary", .obj [("total_windows", .num 5)])]]) := by
  refine ⟨rfl, rfl, rfl, fun h => ?_⟩
  have h' : JSVal.num 0 = JSVal.num 5 := h
  have h0 : (0 : ℚ) = 5 := JSVal.num.inj h'
  norm_num at h0

/-- C8 amended: the repository has two fixed-shape presenters instead of
one dispatching on a `summary` key: the legacy page takes element 0 of an
array result (with `?? {}` default) and reads the flat legacy fields even
when a `summary` key is present and `classification` is absent, while the
rich page performs no array unwrapping — a non-null result is used as-is,
and an array result yields the default rich-shape fields. -/
theorem shape_handling_amended (o : JSVal) (l : List JSVal) (r : JSVal)
    (hr : r ≠ .null) (hs : o.hasKey "summary" = true)
    (hc : (o.get "classification").isNull = true) :
    outputLegacy (.arr (o :: l)) = o.nullishD (.obj []) ∧
    outputRich r = r ∧
    totalWindowsOf (.arr (o :: l)) = .num 0 ∧
    predictionsPreviewOf (.arr (o :: l)) = [] ∧
    classificationData (.arr (o :: l)) = [] := by
  obtain ⟨fs, rfl⟩ : ∃ fs, o = .obj fs := by
    cases o with
    | obj fs => exact ⟨fs, rfl⟩
    | null => simp [JSVal.hasKey] at hs
    | bool b => simp [JSVal.hasKey] at hs
    | num q => simp [JSVal.hasKey] at hs
    | str s => simp [JSVal.hasKey] at hs
    | arr a => simp [JSVal.hasKey] at hs
  have hget : (JSVal.obj fs).get "classification" = .null :=
    (isNull_eq_true_iff _).1 hc
  refine ⟨rfl, JSVal.nullishD_of_ne_null hr _, rfl, rfl, ?_⟩
  simp [classificationData, outputLegacy, JSVal.nullishD, JSVal.isNull, hget,
    JSVal.asArray]

/-- Witness for `shape_handling_amended` at
`o = { summary: {} }`, `l = []`, `r = 1`. -/
theorem shape_handling_amended_witness :
    outputRich (.num 1) = .num 1 ∧
    totalWindowsOf (.arr [.obj [("summary", .obj [])]]) = .num 0 ∧
    classificationData (.arr [.obj [("summary", .obj [])]]) = [] := by
  have h := shape_handling_amended (.obj [("summary", .obj [])]) [] (.num 1)
    (fun h => by cases h) (by decide) (by decide)
  exact ⟨h.2.1, h.2.2.1, h.2.2.2.2⟩

end DLWAT
